import Mathlib

/-!
Shallow embedding of the order-placement core of the Ecommerce backend
(src/unnamed/part_000, route `app.post('/orders')`, lines 446-500), together
with the parts of the data model it touches (products, orders, order_items;
src/src/models and src/unnamed/part_002).

Modelling conventions:
* The relational store is a record of three lists (products, orders,
  order_items).  Row ids are naturals; the model allocates order ids as
  `orders.length + 1` (serial column).  Product ids are naturals, with 0
  playing the role of a JS-falsy id (the code tests `!product_id`).
* Quantities are integers (the code never checks sign; JSON numbers that are
  integers of magnitude below 2^53 are exact in JS).  Prices and totals are
  exact rationals.
* node-postgres returns `numeric` columns as decimal strings; the JS code
  coerces them with arithmetic.  JS numbers are IEEE-754 binary64, so every
  coercion and every arithmetic step rounds to 53 significant bits
  (round-to-nearest, ties-to-even).  `fpRound` below implements that rounding
  on exact rationals (normal range only: no overflow, subnormals or NaN,
  which is ample for the magnitudes allowed by the `numeric(10,2)` columns).
* Inserting a JS number into a `numeric(10,2)` column rounds it to two
  decimal digits, half away from zero (`pgRound2`).
* Each `await pool.query(...)` is one atomic store operation.  There is no
  transaction in the source, so the write phase is modelled as a list of
  store updates applied one by one; `failAt` injects a failure of the n-th
  write statement (the thrown exception is caught and mapped to a 500
  response, leaving all previously applied writes in place).
-/

set_option maxRecDepth 10000

attribute [local semireducible] Rat.add Rat.mul Rat.sub Rat.inv

/-- Fuel-bounded bit length of a natural number (`bl f n` is the number of
binary digits of `n` for any fuel `f` that is at least that number of
digits; 256 suffices for every number the model meets). -/
def bl : Nat → Nat → Nat
  | _, 0 => 0
  | 0, _ => 0
  | f + 1, n => bl f (n / 2) + 1

/-- The rational `2 ^ s` for an integer exponent `s`. -/
def pow2 (s : ℤ) : ℚ :=
  if 0 ≤ s then ((2 ^ s.toNat : ℕ) : ℚ) else ((2 ^ (-s).toNat : ℕ) : ℚ)⁻¹

/-- Round a rational to the nearest integer, ties to even (the rounding used
inside IEEE-754 binary64 arithmetic). -/
def roundEven (x : ℚ) : ℤ :=
  let f := ⌊x⌋
  let r := x - (f : ℚ)
  if r < 1/2 then f
  else if 1/2 < r then f + 1
  else if f % 2 = 0 then f else f + 1

/-- Round an exact rational to the nearest IEEE-754 binary64 value
(normal range, round-to-nearest, ties-to-even), expressed again as a
rational.  This is the rounding JS applies to every numeric coercion and
every arithmetic operation in the route handler. -/
def fpRound (q : ℚ) : ℚ :=
  if q = 0 then 0
  else
    let c : ℤ := (bl 256 q.num.natAbs : ℤ) - (bl 256 q.den : ℤ)
    let e : ℤ := if pow2 c ≤ |q| then c else c - 1
    let s : ℤ := e - 52
    (roundEven (q / pow2 s) : ℚ) * pow2 s

/-- One step of the accumulation `total += product.price * quantity`
(part_000 line 467) in JS binary64 arithmetic: the decimal price string from
the store is coerced to a double, multiplied by the quantity (one rounding),
and added to the running total (one rounding). -/
def jsStep (t : ℚ) (pq : ℚ × ℤ) : ℚ :=
  fpRound (t + fpRound (fpRound pq.1 * (pq.2 : ℚ)))

/-- The value of the JS variable `total` after the validation loop of
part_000 lines 457-469, given the (price, quantity) pairs in request
order. -/
def jsTotal (l : List (ℚ × ℤ)) : ℚ := l.foldl jsStep 0

/-- Assignment of a JS number to a `numeric(10,2)` column: Postgres rounds
to two decimal digits, half away from zero. -/
def pgRound2 (q : ℚ) : ℚ :=
  if 0 ≤ q then (⌊q * 100 + 1/2⌋ : ℚ) / 100 else -((⌊-q * 100 + 1/2⌋ : ℚ) / 100)

/-- A row of the `products` table (the columns the order route touches:
src/src/models/Product.ts). -/
structure Product where
  id : ℕ
  price : ℚ
  stock : ℤ
  deriving DecidableEq

/-- A row of the `orders` table (part_000 lines 472-475; the model in
src/src/models has columns id, user, total, status). -/
structure OrderRow where
  id : ℕ
  buyer_id : ℕ
  total : ℚ
  status : String
  deriving DecidableEq

/-- A row of the `order_items` table (part_000 lines 479-484;
src/unnamed/part_002 lines 11-36). -/
structure ItemRow where
  order_id : ℕ
  product_id : ℕ
  quantity : ℤ
  price : ℚ
  deriving DecidableEq

/-- One entry of the request body `products` array: `{ product_id, quantity }`
(part_000 line 447). -/
structure ReqItem where
  product_id : ℕ
  quantity : ℤ
  deriving DecidableEq

/-- One entry of the `productDetails` array built during validation
(part_000 line 468). -/
structure Detail where
  product_id : ℕ
  quantity : ℤ
  price : ℚ
  deriving DecidableEq

/-- The relational store as seen by the order route. -/
structure Store where
  products : List Product
  orders : List OrderRow
  orderItems : List ItemRow
  deriving DecidableEq

/-- The client-visible error outcomes of the route.  The source produces
exactly three 400-level messages: missing/non-array `products`
(line 450), an item without id or quantity (line 460), and one combined
message for an unknown product or insufficient stock (line 465, interpolating
only the product id). -/
inductive CommitError where
  | notArray
  | missingIdOrQty
  | unavailableOrInsufficient (product_id : ℕ)
  deriving DecidableEq

/-- The HTTP outcome of the route: 400 with a specific message, 500 from the
catch block, or 201 with the inserted order row. -/
inductive PlaceResult where
  | badRequest (e : CommitError)
  | serverError
  | created (order : OrderRow)
  deriving DecidableEq

/-- `SELECT * FROM products WHERE id = $1` (part_000 line 462). -/
def findProduct (s : Store) (pid : ℕ) : Option Product :=
  s.products.find? (fun p => p.id == pid)

/-- The validation loop of part_000 lines 457-469: for each requested item,
reject a falsy id or quantity, fetch the product, reject a missing product or
`stock < quantity` with one combined error, and collect
`{ product_id, quantity, price }` in request order.  No store mutation
happens here. -/
def validate (s : Store) : List ReqItem → Except CommitError (List Detail)
  | [] => .ok []
  | it :: rest =>
    if it.product_id = 0 ∨ it.quantity = 0 then .error .missingIdOrQty
    else
      match findProduct s it.product_id with
      | none => .error (.unavailableOrInsufficient it.product_id)
      | some p =>
        if p.stock < it.quantity then .error (.unavailableOrInsufficient it.product_id)
        else
          match validate s rest with
          | .error e => .error e
          | .ok ds => .ok (⟨it.product_id, it.quantity, p.price⟩ :: ds)

/-- `INSERT INTO orders (buyer_id, total, status) VALUES ...` (lines 472-475). -/
def insertOrderOp (o : OrderRow) : Store → Store :=
  fun st => { st with orders := st.orders ++ [o] }

/-- `INSERT INTO order_items (order_id, product_id, quantity, price) ...`
(lines 479-484). -/
def insertItemOp (oid : ℕ) (d : Detail) : Store → Store :=
  fun st => { st with orderItems := st.orderItems ++ [⟨oid, d.product_id, d.quantity, d.price⟩] }

/-- Effect of `UPDATE products SET stock = stock - $1 WHERE id = $2` on one
row. -/
def decStock (d : Detail) (p : Product) : Product :=
  if p.id = d.product_id then { p with stock := p.stock - d.quantity } else p

/-- `UPDATE products SET stock = stock - $1 WHERE id = $2` (lines 487-492). -/
def updateStockOp (d : Detail) : Store → Store :=
  fun st => { st with products := st.products.map (decStock d) }

/-- Run a list of store statements in order; `failAt = some i` makes the
i-th statement throw, leaving the writes already applied in place (there is
no transaction in the source). -/
def applyOps (failAt : Option ℕ) : ℕ → List (Store → Store) → Store → Store × Bool
  | _, [], st => (st, true)
  | i, op :: rest, st =>
    if failAt = some i then (st, false) else applyOps failAt (i + 1) rest (op st)

/-- The order row inserted by lines 472-475: serial id, the JS-computed
total as stored by the `numeric(10,2)` column, and the literal status
string `'pendente'`. -/
def mkOrder (buyer : ℕ) (ds : List Detail) (s : Store) : OrderRow :=
  ⟨s.orders.length + 1, buyer,
   pgRound2 (jsTotal (ds.map fun d => (d.price, d.quantity))), "pendente"⟩

/-- The write phase of the route (lines 471-492): insert the order header,
then one order_items row per detail, then one stock update per detail, as
separate sequential statements.  A failure at any statement surfaces as the
catch-all 500 response with everything already written left in place. -/
def writePhase (failAt : Option ℕ) (buyer : ℕ) (ds : List Detail) (s : Store) :
    Store × PlaceResult :=
  match applyOps failAt 0
      (insertOrderOp (mkOrder buyer ds s) ::
        (ds.map (insertItemOp (mkOrder buyer ds s).id) ++ ds.map updateStockOp)) s with
  | (s2, true) => (s2, .created (mkOrder buyer ds s))
  | (s2, false) => (s2, .serverError)

/-- The whole route handler `app.post('/orders')` (lines 446-500):
reject a missing or non-array body field, validate every item (reads only),
then run the write phase. -/
def placeOrder (failAt : Option ℕ) (buyer : ℕ) (req : Option (List ReqItem))
    (s : Store) : Store × PlaceResult :=
  match req with
  | none => (s, .badRequest .notArray)
  | some items =>
    match validate s items with
    | .error e => (s, .badRequest e)
    | .ok ds => writePhase failAt buyer ds s

/-- One admissible schedule of two concurrent requests against the shared
pool: every `pool.query` is a separately awaited statement and the source
opens no transaction, so the validation loops of both requests may complete
(reading the same stock) before either write phase runs.  This definition
executes exactly that interleaving. -/
def racedPair (b1 b2 : ℕ) (i1 i2 : List ReqItem) (s : Store) :
    Store × PlaceResult × PlaceResult :=
  match validate s i1, validate s i2 with
  | .error e1, .error e2 => (s, .badRequest e1, .badRequest e2)
  | .error e1, .ok d2 =>
    let r := writePhase none b2 d2 s
    (r.1, .badRequest e1, r.2)
  | .ok d1, .error e2 =>
    let r := writePhase none b1 d1 s
    (r.1, r.2, .badRequest e2)
  | .ok d1, .ok d2 =>
    let r1 := writePhase none b1 d1 s
    let r2 := writePhase none b2 d2 r1.1
    (r2.1, r1.2, r2.2)

/-- The product columns written by `PUT /products/:id` (part_000 lines
182-210): the route updates only the `products` table. -/
def updateProduct (pid : ℕ) (newPrice : ℚ) (newStock : ℤ) (s : Store) : Store :=
  { s with products := s.products.map fun p =>
      if p.id = pid then { p with price := newPrice, stock := newStock } else p }

/-- The exact (infinite-precision) value of `sum(quantity * price)` over a
list of (price, quantity) pairs. -/
def exactTotal (l : List (ℚ × ℤ)) : ℚ :=
  (l.map fun pq => pq.1 * (pq.2 : ℚ)).sum

/-- The exact value of `sum(line.quantity * line.unit_price)` over persisted
order_items rows (invariant I1 of the specification). -/
def itemsTotal (items : List ItemRow) : ℚ :=
  (items.map fun it => it.price * (it.quantity : ℚ)).sum

/-- Decidable check that every rounding step of the JS total accumulation is
exact: each coerced price, each product `price * quantity` and each partial
sum is its own binary64 rounding. -/
def exactChain (t : ℚ) : List (ℚ × ℤ) → Bool
  | [] => true
  | pq :: rest =>
    (fpRound pq.1 == pq.1 &&
     fpRound (pq.1 * (pq.2 : ℚ)) == pq.1 * (pq.2 : ℚ) &&
     fpRound (t + pq.1 * (pq.2 : ℚ)) == t + pq.1 * (pq.2 : ℚ)) &&
    exactChain (t + pq.1 * (pq.2 : ℚ)) rest

/-- Total requested quantity of one product over a detail list (a product can
occur in several lines of one request). -/
def sumQty (pid : ℕ) (ds : List Detail) : ℤ :=
  (ds.map fun d => if d.product_id = pid then d.quantity else 0).sum

/-- Sequential application of all stock updates of the write phase. -/
def decAll : List Detail → List Product → List Product
  | [], ps => ps
  | d :: ds, ps => decAll ds (ps.map (decStock d))

/-- Fold all statements of a write list over the store. -/
def applyAll (ops : List (Store → Store)) (st : Store) : Store :=
  ops.foldl (fun a f => f a) st

instance {α β : Type} [DecidableEq α] [DecidableEq β] : DecidableEq (Except α β) := fun x y =>
  match x, y with
  | .error a, .error b =>
    if h : a = b then isTrue (by rw [h]) else isFalse (fun hc => by cases hc; exact h rfl)
  | .error _, .ok _ => isFalse (fun hc => Except.noConfusion hc)
  | .ok _, .error _ => isFalse (fun hc => Except.noConfusion hc)
  | .ok a, .ok b =>
    if h : a = b then isTrue (by rw [h]) else isFalse (fun hc => by cases hc; exact h rfl)

/-! Helper lemmas about the write phase. -/

theorem applyAll_cons (op : Store → Store) (ops : List (Store → Store)) (st : Store) :
    applyAll (op :: ops) st = applyAll ops (op st) := rfl

theorem applyAll_append (l1 l2 : List (Store → Store)) (st : Store) :
    applyAll (l1 ++ l2) st = applyAll l2 (applyAll l1 st) := by
  simp [applyAll, List.foldl_append]

theorem applyOps_none (ops : List (Store → Store)) :
    ∀ (i : ℕ) (st : Store), applyOps none i ops st = (applyAll ops st, true) := by
  induction ops with
  | nil => intro i st; rfl
  | cons op rest ih =>
    intro i st
    rw [applyOps, if_neg (by simp)]
    exact ih (i + 1) (op st)

theorem applyOps_true {failAt : Option ℕ} (ops : List (Store → Store)) :
    ∀ (i : ℕ) (st st2 : Store), applyOps failAt i ops st = (st2, true) → st2 = applyAll ops st := by
  induction ops with
  | nil =>
    intro i st st2 h
    cases h
    rfl
  | cons op rest ih =>
    intro i st st2 h
    rw [applyOps] at h
    by_cases hf : failAt = some i
    · rw [if_pos hf] at h
      simp at h
    · rw [if_neg hf] at h
      exact ih (i + 1) (op st) st2 h

theorem applyAll_item_ops (oid : ℕ) :
    ∀ (ds : List Detail) (st : Store),
      applyAll (ds.map (insertItemOp oid)) st =
        { st with orderItems :=
            st.orderItems ++ ds.map (fun d => ⟨oid, d.product_id, d.quantity, d.price⟩) } := by
  intro ds
  induction ds with
  | nil => intro st; simp [applyAll]
  | cons d ds ih =>
    intro st
    rw [List.map_cons, applyAll_cons, ih]
    simp [insertItemOp, List.append_assoc]

theorem applyAll_stock_ops :
    ∀ (ds : List Detail) (st : Store),
      applyAll (ds.map updateStockOp) st = { st with products := decAll ds st.products } := by
  intro ds
  induction ds with
  | nil => intro st; simp [applyAll, decAll]
  | cons d ds ih =>
    intro st
    rw [List.map_cons, applyAll_cons, ih]
    simp [updateStockOp, decAll]

/-- Closed form of a fault-free write phase: the order header is appended,
one item row per detail is appended, and every stock update is applied. -/
theorem writePhase_none_eq (buyer : ℕ) (ds : List Detail) (s : Store) :
    writePhase none buyer ds s =
      (⟨decAll ds s.products,
        s.orders ++ [mkOrder buyer ds s],
        s.orderItems ++
          ds.map (fun d => ⟨(mkOrder buyer ds s).id, d.product_id, d.quantity, d.price⟩)⟩,
       .created (mkOrder buyer ds s)) := by
  unfold writePhase
  rw [applyOps_none, applyAll_cons, applyAll_append, applyAll_item_ops, applyAll_stock_ops]
  simp [insertOrderOp]

/-- A write phase that reports success ran every statement, whatever the
fault schedule was. -/
theorem writePhase_created {failAt : Option ℕ} {buyer : ℕ} {ds : List Detail} {s s2 : Store}
    {o : OrderRow} (h : writePhase failAt buyer ds s = (s2, .created o)) :
    writePhase none buyer ds s = (s2, .created o) := by
  unfold writePhase at h ⊢
  rw [applyOps_none]
  rcases ha : applyOps failAt 0
      (insertOrderOp (mkOrder buyer ds s) ::
        (ds.map (insertItemOp (mkOrder buyer ds s).id) ++ ds.map updateStockOp)) s with ⟨sa, b⟩
  rw [ha] at h
  cases b
  · simp at h
  · have h2 := applyOps_true _ _ _ _ ha
    simp at h
    obtain ⟨hs, ho⟩ := h
    subst ho
    subst hs
    simp [← h2]

theorem writePhase_no_badRequest (failAt : Option ℕ) (buyer : ℕ) (ds : List Detail) (s : Store)
    (e : CommitError) : (writePhase failAt buyer ds s).2 ≠ .badRequest e := by
  unfold writePhase
  rcases ha : applyOps failAt 0
      (insertOrderOp (mkOrder buyer ds s) ::
        (ds.map (insertItemOp (mkOrder buyer ds s).id) ++ ds.map updateStockOp)) s with ⟨sa, b⟩
  cases b <;> simp

/-! Helper lemmas about validation. -/

/-- Every detail produced by a successful validation pass records an existing
product, its current catalog price, and a quantity within its current stock. -/
theorem validate_ok_mem {s : Store} :
    ∀ {items : List ReqItem} {ds : List Detail}, validate s items = .ok ds →
      ∀ d ∈ ds, d.product_id ≠ 0 ∧ d.quantity ≠ 0 ∧
        ∃ p, findProduct s d.product_id = some p ∧ d.price = p.price ∧ d.quantity ≤ p.stock := by
  intro items
  induction items with
  | nil =>
    intro ds h d hd
    rw [validate] at h
    cases h
    simp at hd
  | cons it rest ih =>
    intro ds h d hd
    rw [validate] at h
    by_cases h0 : it.product_id = 0 ∨ it.quantity = 0
    · rw [if_pos h0] at h
      exact Except.noConfusion h
    · rw [if_neg h0] at h
      rcases hfp : findProduct s it.product_id with _ | p
      · rw [hfp] at h
        exact Except.noConfusion h
      · rw [hfp] at h
        dsimp only at h
        by_cases hst : p.stock < it.quantity
        · rw [if_pos hst] at h
          exact Except.noConfusion h
        · rw [if_neg hst] at h
          rcases hv : validate s rest with e | ds0
          · rw [hv] at h
            exact Except.noConfusion h
          · rw [hv] at h
            dsimp only at h
            cases h
            rcases List.mem_cons.1 hd with hd1 | hd1
            · subst hd1
              exact ⟨fun hc => h0 (Or.inl hc), fun hc => h0 (Or.inr hc),
                p, hfp, rfl, not_lt.1 hst⟩
            · exact ih hv d hd1

/-! Helper lemmas about the stock updates. -/

theorem decStock_id (d : Detail) (p : Product) : (decStock d p).id = p.id := by
  unfold decStock
  split <;> rfl

theorem find?_map_decStock (d : Detail) (pid : ℕ) :
    ∀ ps : List Product,
      (ps.map (decStock d)).find? (fun p => p.id == pid) =
        (ps.find? (fun p => p.id == pid)).map (decStock d) := by
  intro ps
  induction ps with
  | nil => rfl
  | cons p ps ih =>
    rw [List.map_cons]
    by_cases hid : p.id = pid
    · simp [List.find?_cons, decStock_id, hid]
    · simp [List.find?_cons, decStock_id, hid, ih]

theorem findProduct_decAll :
    ∀ (ds : List Detail) (ps : List Product) (pid : ℕ),
      (decAll ds ps).find? (fun p => p.id == pid) =
        (ps.find? (fun p => p.id == pid)).map
          (fun p => ds.foldl (fun p d => decStock d p) p) := by
  intro ds
  induction ds with
  | nil =>
    intro ps pid
    simp [decAll]
  | cons d ds ih =>
    intro ps pid
    rw [decAll, ih, find?_map_decStock]
    cases ps.find? (fun p => p.id == pid) <;> simp

/-- Folding the stock updates of one request over a product decrements its
stock by the total quantity requested for it and changes nothing else. -/
theorem foldl_decStock_spec (pid : ℕ) :
    ∀ (ds : List Detail) (p : Product), p.id = pid →
      ds.foldl (fun p d => decStock d p) p = ⟨p.id, p.price, p.stock - sumQty pid ds⟩ := by
  intro ds
  induction ds with
  | nil =>
    intro p hp
    cases p
    simp [sumQty]
  | cons d ds ih =>
    intro p hp
    rw [List.foldl_cons]
    by_cases hd : p.id = d.product_id
    · rw [show decStock d p = ⟨p.id, p.price, p.stock - d.quantity⟩ by
        unfold decStock; rw [if_pos hd]]
      rw [ih ⟨p.id, p.price, p.stock - d.quantity⟩ hp]
      have hdp : d.product_id = pid := hd ▸ hp
      simp [sumQty, hdp, sub_sub]
    · rw [show decStock d p = p by unfold decStock; rw [if_neg hd]]
      rw [ih p hp]
      have hdp : ¬ d.product_id = pid := fun hc => hd (hp.trans hc.symm)
      simp [sumQty, hdp]

theorem sumQty_of_filter_nil {pid : ℕ} :
    ∀ {ds : List Detail}, ds.filter (fun d => d.product_id == pid) = [] → sumQty pid ds = 0 := by
  intro ds
  induction ds with
  | nil => intro _; simp [sumQty]
  | cons d ds ih =>
    intro h
    rw [List.filter_cons] at h
    by_cases hb : ((d.product_id == pid) : Bool) = true
    · rw [if_pos hb] at h
      exact List.noConfusion h
    · rw [if_neg hb] at h
      have hd : ¬ d.product_id = pid := by simpa using hb
      simp [sumQty, hd]
      simpa [sumQty] using ih h

theorem sumQty_of_filter {pid : ℕ} {q : ℤ} {pr : ℚ} :
    ∀ {ds : List Detail},
      ds.filter (fun d => d.product_id == pid) = [⟨pid, q, pr⟩] → sumQty pid ds = q := by
  intro ds
  induction ds with
  | nil => intro h; exact List.noConfusion h
  | cons d ds ih =>
    intro h
    rw [List.filter_cons] at h
    by_cases hb : ((d.product_id == pid) : Bool) = true
    · rw [if_pos hb] at h
      have h1 : d = ⟨pid, q, pr⟩ := (List.cons.injEq _ _ _ _ ▸ h).1
      have h2 : ds.filter (fun d => d.product_id == pid) = [] :=
        (List.cons.injEq _ _ _ _ ▸ h).2
      have hd : d.product_id = pid := by simpa using hb
      simp [sumQty, hd, h1, sumQty_of_filter_nil h2]
      simpa [sumQty] using sumQty_of_filter_nil h2
    · rw [if_neg hb] at h
      have hd : ¬ d.product_id = pid := by simpa using hb
      simp [sumQty, hd]
      simpa [sumQty] using ih h

/-! Helper lemmas about the total computation. -/

/-- When every rounding step of the binary64 accumulation is exact, the JS
total coincides with the exact decimal sum. -/
theorem jsTotal_exactChain :
    ∀ (l : List (ℚ × ℤ)) (t : ℚ), exactChain t l = true →
      l.foldl jsStep t = t + exactTotal l := by
  intro l
  induction l with
  | nil =>
    intro t _
    simp [exactTotal]
  | cons pq l ih =>
    intro t h
    rw [exactChain] at h
    simp only [Bool.and_eq_true, beq_iff_eq] at h
    obtain ⟨⟨⟨h1, h2⟩, h3⟩, h4⟩ := h
    rw [List.foldl_cons,
      show jsStep t pq = t + pq.1 * (pq.2 : ℚ) by rw [jsStep, h1, h2, h3],
      ih _ h4]
    simp [exactTotal]
    ring

/-- A value that is an integer number of cents is unchanged by the
`numeric(10,2)` assignment rounding. -/
theorem pgRound2_of_cent (q : ℚ) (k : ℤ) (h : q * 100 = (k : ℚ)) : pgRound2 q = q := by
  have hq : q = (k : ℚ) / 100 := by
    field_simp at h ⊢
    linarith
  unfold pgRound2
  by_cases h0 : 0 ≤ q
  · rw [if_pos h0, h, add_comm, Int.floor_add_int, show ⌊(1 : ℚ)/2⌋ = 0 by norm_num]
    rw [hq]
    push_cast
    ring
  · rw [if_neg h0]
    have h2 : -q * 100 = ((-k : ℤ) : ℚ) := by push_cast; linarith
    rw [h2, add_comm, Int.floor_add_int, show ⌊(1 : ℚ)/2⌋ = 0 by norm_num]
    rw [hq]
    push_cast
    ring

theorem itemsTotal_append (a b : List ItemRow) :
    itemsTotal (a ++ b) = itemsTotal a + itemsTotal b := by
  simp [itemsTotal]

theorem itemsTotal_map_detail (oid : ℕ) (ds : List Detail) :
    itemsTotal (ds.map fun d => ⟨oid, d.product_id, d.quantity, d.price⟩) =
      exactTotal (ds.map fun d => (d.price, d.quantity)) := by
  simp [itemsTotal, exactTotal, List.map_map]
  rfl

theorem placeOrder_validate_ok {s : Store} {items : List ReqItem} {ds : List Detail}
    (h : validate s items = .ok ds) (failAt : Option ℕ) (buyer : ℕ) :
    placeOrder failAt buyer (some items) s = writePhase failAt buyer ds s := by
  unfold placeOrder
  dsimp only
  rw [h]

/-! Claim theorems. -/

/-- C1: the claim asserts that the order insert, line-item inserts and stock
decrements are all-or-nothing.  The source wraps them in no transaction, so a
failure of the first order_items insert (write statement index 1) leaves the
already inserted Order header persisted, with no line items and unchanged
stock, while the client gets a 500: the partial state survives, refuting
atomicity.  This theorem evaluates the route at that failing input. -/
theorem order_commit_partial_write_persists :
    placeOrder (some 1) 9 (some [⟨1, 2⟩]) ⟨[⟨1, 10, 5⟩], [], []⟩ =
      (⟨[⟨1, 10, 5⟩], [⟨1, 9, 20, "pendente"⟩], []⟩, .serverError) ∧
    (placeOrder (some 1) 9 (some [⟨1, 2⟩]) ⟨[⟨1, 10, 5⟩], [], []⟩).1.orders ≠ [] ∧
    (placeOrder (some 1) 9 (some [⟨1, 2⟩]) ⟨[⟨1, 10, 5⟩], [], []⟩).1.orderItems = [] := by
  decide

/-- C2 counterexample: a successful commit whose persisted total differs from
the exact sum of quantity times unit price over its line items.  Products:
id 1 price 10000000.00 stock 2000000000, id 2 price 10.10 stock 1; request
[(1, 10^9), (2, 1), (1, -10^9)].  The binary64 accumulation computes
fl(fl(10^16 + fl(10.10)) - 10^16) = 10, so the stored total is 10.00, while
the exact sum over the persisted items is 10.10: catastrophic cancellation
makes the float drift survive the 2-decimal column rounding. -/
theorem order_total_float_drift_cex :
    (placeOrder none 3 (some [⟨1, 1000000000⟩, ⟨2, 1⟩, ⟨1, -1000000000⟩])
        ⟨[⟨1, 10000000, 2000000000⟩, ⟨2, 101/10, 1⟩], [], []⟩).2 =
      .created ⟨1, 3, 10, "pendente"⟩ ∧
    itemsTotal (placeOrder none 3 (some [⟨1, 1000000000⟩, ⟨2, 1⟩, ⟨1, -1000000000⟩])
        ⟨[⟨1, 10000000, 2000000000⟩, ⟨2, 101/10, 1⟩], [], []⟩).1.orderItems = 101/10 ∧
    (10 : ℚ) ≠ 101/10 := by
  decide

/-- C2 (amended): the persisted total is the 2-decimal rounding of the
binary64 accumulation of price times quantity; whenever every step of that
accumulation is exactly representable and the exact sum is a whole number of
cents, the persisted `order.total` equals the exact sum of quantity times the
snapshot unit price over the line items the commit inserted. -/
theorem order_total_exact_of_exact_chain :
    ∀ (s : Store) (buyer : ℕ) (items : List ReqItem) (ds : List Detail) (k : ℤ)
      (s2 : Store) (o : OrderRow),
      validate s items = .ok ds →
      exactChain 0 (ds.map fun d => (d.price, d.quantity)) = true →
      exactTotal (ds.map fun d => (d.price, d.quantity)) * 100 = (k : ℚ) →
      placeOrder none buyer (some items) s = (s2, .created o) →
      o.total = exactTotal (ds.map fun d => (d.price, d.quantity)) ∧
      itemsTotal s2.orderItems =
        itemsTotal s.orderItems + exactTotal (ds.map fun d => (d.price, d.quantity)) := by
  intro s buyer items ds k s2 o hv hc hk hp
  rw [placeOrder_validate_ok hv, writePhase_none_eq] at hp
  have h1 := congrArg Prod.fst hp
  have h2 := congrArg Prod.snd hp
  simp only at h1 h2
  injection h2 with h2
  subst h2
  have htot : (mkOrder buyer ds s).total =
      exactTotal (ds.map fun d => (d.price, d.quantity)) := by
    show pgRound2 (jsTotal (ds.map fun d => (d.price, d.quantity))) = _
    rw [jsTotal, jsTotal_exactChain _ 0 hc, zero_add]
    exact pgRound2_of_cent _ k hk
  refine ⟨htot, ?_⟩
  rw [← h1]
  show itemsTotal (s.orderItems ++ _) = _
  rw [itemsTotal_append, itemsTotal_map_detail]

/-- Witness for C2 (amended) at the scenario of the specification: one line of
quantity 3 at price 10.00 commits with total exactly 30.00. -/
theorem order_total_exact_of_exact_chain_witness :
    (⟨1, 1, 30, "pendente"⟩ : OrderRow).total =
        exactTotal (([⟨1, 3, 10⟩] : List Detail).map fun d => (d.price, d.quantity)) ∧
      itemsTotal (⟨[⟨1, 10, 2⟩], [⟨1, 1, 30, "pendente"⟩], [⟨1, 1, 3, 10⟩]⟩ : Store).orderItems =
        itemsTotal (⟨[⟨1, 10, 5⟩], [], []⟩ : Store).orderItems +
          exactTotal (([⟨1, 3, 10⟩] : List Detail).map fun d => (d.price, d.quantity)) :=
  order_total_exact_of_exact_chain ⟨[⟨1, 10, 5⟩], [], []⟩ 1 [⟨1, 3⟩] [⟨1, 3, 10⟩] 3000
    ⟨[⟨1, 10, 2⟩], [⟨1, 1, 30, "pendente"⟩], [⟨1, 1, 3, 10⟩]⟩ ⟨1, 1, 30, "pendente"⟩
    (by decide) (by decide) (by decide) (by decide)

/-- C3 counterexample: a successful commit after which the stock of the
involved product is negative and differs from stock-before minus the
per-line quantity.  Stock 5, request with two lines of quantity 3 for the
same product: both lines validate against the same unmodified stock and both
decrements run, ending at -1. -/
theorem stock_decrement_negative_cex :
    (placeOrder none 8 (some [⟨2, 3⟩, ⟨2, 3⟩]) ⟨[⟨2, 3, 5⟩], [], []⟩).2 =
      .created ⟨1, 8, 18, "pendente"⟩ ∧
    findProduct (placeOrder none 8 (some [⟨2, 3⟩, ⟨2, 3⟩]) ⟨[⟨2, 3, 5⟩], [], []⟩).1 2 =
      some ⟨2, 3, -1⟩ ∧ (-1 : ℤ) < 0 ∧ ¬((-1 : ℤ) = 5 - 3) := by
  decide

/-- C3 (amended): for a fault-free successful commit, every product that
occurs in exactly one line item with positive quantity ends with
stock-before minus that quantity, which is never negative. -/
theorem stock_decrement_unique_line :
    ∀ (s : Store) (buyer : ℕ) (items : List ReqItem) (ds : List Detail)
      (pid : ℕ) (q : ℤ) (pr : ℚ) (p : Product),
      validate s items = .ok ds →
      ds.filter (fun d => d.product_id == pid) = [⟨pid, q, pr⟩] →
      0 < q →
      findProduct s pid = some p →
      findProduct (placeOrder none buyer (some items) s).1 pid =
        some ⟨pid, p.price, p.stock - q⟩ ∧ 0 ≤ p.stock - q := by
  intro s buyer items ds pid q pr p hv hf hq hp
  have hmem : (⟨pid, q, pr⟩ : Detail) ∈ ds := by
    have hm : (⟨pid, q, pr⟩ : Detail) ∈ ds.filter (fun d => d.product_id == pid) := by
      rw [hf]
      exact List.mem_singleton_self _
    exact List.mem_of_mem_filter hm
  have hstock : q ≤ p.stock := by
    obtain ⟨_, _, p2, hp2, _, hle⟩ := validate_ok_mem hv _ hmem
    rw [hp] at hp2
    injection hp2 with hp2
    subst hp2
    exact hle
  refine ⟨?_, by linarith⟩
  rw [placeOrder_validate_ok hv, writePhase_none_eq]
  show (decAll ds s.products).find? (fun x => x.id == pid) = _
  rw [findProduct_decAll]
  have hfind : s.products.find? (fun x => x.id == pid) = some p := hp
  rw [hfind]
  have hpid : p.id = pid := by
    have hs2 := List.find?_some hfind
    simpa using hs2
  simp only [Option.map_some']
  rw [foldl_decStock_spec pid ds p hpid, sumQty_of_filter hf, hpid]

/-- Witness for C3 (amended): stock 9, one line of quantity 3, final stock 6. -/
theorem stock_decrement_unique_line_witness :
    findProduct (placeOrder none 6 (some [⟨4, 3⟩]) ⟨[⟨4, 2, 9⟩], [], []⟩).1 4 =
      some ⟨4, 2, 6⟩ ∧ (0 : ℤ) ≤ 6 :=
  stock_decrement_unique_line ⟨[⟨4, 2, 9⟩], [], []⟩ 6 [⟨4, 3⟩] [⟨4, 3, 2⟩] 4 3 2 ⟨4, 2, 9⟩
    (by decide) (by decide) (by decide) (by decide)

/-- C4: the claim asserts that with stock 1, two concurrent commits for the
last unit end with exactly one success and one InsufficientStock.  Since each
`pool.query` is separately awaited and no transaction or re-check exists, the
schedule in which both validation loops read stock 1 before either write
phase runs is admissible; under it both requests succeed and the stock ends
at -1, refuting the claim.  This theorem evaluates that interleaving. -/
theorem concurrent_oversell_both_succeed :
    racedPair 4 5 [⟨1, 1⟩] [⟨1, 1⟩] ⟨[⟨1, 10, 1⟩], [], []⟩ =
      (⟨[⟨1, 10, -1⟩], [⟨1, 4, 10, "pendente"⟩, ⟨2, 5, 10, "pendente"⟩],
        [⟨1, 1, 1, 10⟩, ⟨2, 1, 1, 10⟩]⟩,
       .created ⟨1, 4, 10, "pendente"⟩, .created ⟨2, 5, 10, "pendente"⟩) ∧
    findProduct (racedPair 4 5 [⟨1, 1⟩] [⟨1, 1⟩] ⟨[⟨1, 10, 1⟩], [], []⟩).1 1 =
      some ⟨1, 10, -1⟩ ∧ (-1 : ℤ) < 0 := by
  decide

/-- C5: whenever the route answers with any 400 validation error (missing or
non-array body, malformed item, unknown product, insufficient stock), the
store is exactly as before: no order row, no line items, no stock change.
All validation runs before the first write statement. -/
theorem validation_failure_leaves_store_unchanged :
    ∀ (failAt : Option ℕ) (buyer : ℕ) (req : Option (List ReqItem)) (s : Store)
      (e : CommitError),
      (placeOrder failAt buyer req s).2 = .badRequest e →
      (placeOrder failAt buyer req s).1 = s := by
  intro failAt buyer req s e h
  cases req with
  | none => rfl
  | some items =>
    unfold placeOrder at h ⊢
    dsimp only at h ⊢
    rcases hv : validate s items with e2 | ds
    · rfl
    · rw [hv] at h
      exact absurd h (writePhase_no_badRequest failAt buyer ds s e)

/-- Witness for C5: a malformed item (falsy product id) leaves the store
untouched. -/
theorem validation_failure_leaves_store_unchanged_witness :
    (placeOrder none 1 (some [⟨0, 1⟩]) ⟨[⟨1, 10, 5⟩], [], []⟩).1 = ⟨[⟨1, 10, 5⟩], [], []⟩ :=
  validation_failure_leaves_store_unchanged none 1 (some [⟨0, 1⟩]) ⟨[⟨1, 10, 5⟩], [], []⟩
    .missingIdOrQty (by decide)

/-- C6 counterexample: the claim asserts two distinct error kinds,
ProductUnavailable(productId) and InsufficientStock(productId, requested,
available).  The source has a single branch
`if (!product || product.stock < quantity)` producing one message that
carries only the product id: a store without product 7 and a store whose
product 7 has stock 2 yield the same error for the request of 5 units, so
the caller cannot tell the kinds apart and never receives (requested,
available). -/
theorem unavailable_and_insufficient_same_error_cex :
    (placeOrder none 1 (some [⟨7, 5⟩]) ⟨[], [], []⟩).2 =
        .badRequest (.unavailableOrInsufficient 7) ∧
      (placeOrder none 1 (some [⟨7, 5⟩]) ⟨[⟨7, 5, 2⟩], [], []⟩).2 =
        .badRequest (.unavailableOrInsufficient 7) ∧
      (placeOrder none 1 (some [⟨7, 5⟩]) ⟨[], [], []⟩).2 =
        (placeOrder none 1 (some [⟨7, 5⟩]) ⟨[⟨7, 5, 2⟩], [], []⟩).2 := by
  decide

/-- C6 (amended): when the first requested item names a missing product or
one with stock below the requested quantity, the whole operation fails with
the single combined error carrying that product id, and the store is
unchanged (no order is created). -/
theorem unavailable_or_insufficient_combined_error :
    ∀ (failAt : Option ℕ) (s : Store) (buyer pid : ℕ) (qty : ℤ) (rest : List ReqItem),
      pid ≠ 0 → qty ≠ 0 →
      (findProduct s pid = none ∨ ∃ p, findProduct s pid = some p ∧ p.stock < qty) →
      placeOrder failAt buyer (some (⟨pid, qty⟩ :: rest)) s =
        (s, .badRequest (.unavailableOrInsufficient pid)) := by
  intro failAt s buyer pid qty rest h1 h2 h3
  have hcond : ¬((⟨pid, qty⟩ : ReqItem).product_id = 0 ∨ (⟨pid, qty⟩ : ReqItem).quantity = 0) := by
    simp [h1, h2]
  unfold placeOrder
  dsimp only
  rw [validate, if_neg hcond]
  rcases h3 with h3 | ⟨p, hp, hs⟩
  · rw [h3]
  · rw [hp]
    dsimp only
    rw [if_pos hs]

/-- Witness for C6 (amended) at the scenario of the specification: product
with stock 2, request of 5 fails naming product 7, and no order is created. -/
theorem unavailable_or_insufficient_combined_error_witness :
    placeOrder none 1 (some [⟨7, 5⟩]) ⟨[⟨7, 5, 2⟩], [], []⟩ =
      (⟨[⟨7, 5, 2⟩], [], []⟩, .badRequest (.unavailableOrInsufficient 7)) :=
  unavailable_or_insufficient_combined_error none ⟨[⟨7, 5, 2⟩], [], []⟩ 1 7 5 []
    (by decide) (by decide) (Or.inr ⟨⟨7, 5, 2⟩, by decide, by decide⟩)

/-- C7 counterexample: the claim asserts an empty item list is rejected with
a ValidationError before any store access.  The source only tests
`!products || !Array.isArray(products)`, and an empty array passes both, so
the route inserts an order row with total 0 and no line items: the store is
accessed and no error is returned. -/
theorem empty_items_accepted_cex :
    placeOrder none 2 (some []) ⟨[⟨3, 7, 9⟩], [], []⟩ =
      (⟨[⟨3, 7, 9⟩], [⟨1, 2, 0, "pendente"⟩], []⟩, .created ⟨1, 2, 0, "pendente"⟩) ∧
    (placeOrder none 2 (some []) ⟨[⟨3, 7, 9⟩], [], []⟩).1.orders ≠ [] := by
  decide

/-- C7 (amended): the route rejects, before any store mutation, a missing or
non-array products field and any item with a falsy id or quantity, but an
empty item list is accepted (creating an order with total 0 and no line
items) and negative quantities are accepted (quantity -4 commits and
increases stock). -/
theorem input_validation_behavior :
    (∀ (failAt : Option ℕ) (buyer : ℕ) (s : Store),
        placeOrder failAt buyer none s = (s, .badRequest .notArray)) ∧
    (∀ (buyer : ℕ) (s : Store), ∃ o : OrderRow,
        placeOrder none buyer (some []) s =
          ({ s with orders := s.orders ++ [o] }, .created o) ∧
        o.total = 0 ∧ o.status = "pendente") ∧
    (∀ (failAt : Option ℕ) (buyer pid : ℕ) (rest : List ReqItem) (s : Store),
        placeOrder failAt buyer (some (⟨pid, 0⟩ :: rest)) s =
          (s, .badRequest .missingIdOrQty)) ∧
    placeOrder none 2 (some [⟨3, -4⟩]) ⟨[⟨3, 7, 9⟩], [], []⟩ =
      (⟨[⟨3, 7, 13⟩], [⟨1, 2, -28, "pendente"⟩], [⟨1, 3, -4, 7⟩]⟩,
       .created ⟨1, 2, -28, "pendente"⟩) := by
  refine ⟨fun failAt buyer s => rfl, fun buyer s => ⟨mkOrder buyer [] s, ?_, ?_, rfl⟩,
    fun failAt buyer pid rest s => ?_, by decide⟩
  · show writePhase none buyer [] s = _
    rw [writePhase_none_eq]
    simp [decAll]
  · show pgRound2 (jsTotal (([] : List Detail).map fun d => (d.price, d.quantity))) = 0
    decide
  · unfold placeOrder
    dsimp only
    rw [validate, if_pos (Or.inr rfl)]

/-- C8: every line item persisted by a successful commit carries exactly the
price of its product as read during validation (the snapshot), and the
product-update route touches only the products table, so later price edits
change neither historical order_items rows nor order headers. -/
theorem line_item_price_snapshot :
    ∀ (s : Store) (buyer : ℕ) (items : List ReqItem) (ds : List Detail) (s2 : Store)
      (o : OrderRow),
      validate s items = .ok ds →
      placeOrder none buyer (some items) s = (s2, .created o) →
      (s2.orderItems =
        s.orderItems ++ ds.map fun d => ⟨o.id, d.product_id, d.quantity, d.price⟩) ∧
      (∀ d ∈ ds, ∃ p, findProduct s d.product_id = some p ∧ d.price = p.price) ∧
      (∀ (pid : ℕ) (pr : ℚ) (stk : ℤ),
        (updateProduct pid pr stk s2).orderItems = s2.orderItems ∧
        (updateProduct pid pr stk s2).orders = s2.orders) := by
  intro s buyer items ds s2 o hv hp
  rw [placeOrder_validate_ok hv, writePhase_none_eq] at hp
  have h1 := congrArg Prod.fst hp
  have h2 := congrArg Prod.snd hp
  simp only at h1 h2
  injection h2 with h2
  subst h2
  refine ⟨?_, ?_, fun pid pr stk => ⟨rfl, rfl⟩⟩
  · rw [← h1]
  · intro d hd
    obtain ⟨_, _, p, hp2, hpr, _⟩ := validate_ok_mem hv d hd
    exact ⟨p, hp2, hpr⟩

/-- Witness for C8: one line of quantity 2 at price 12.00 is persisted with
unit price 12.00, and a product update does not touch order rows. -/
theorem line_item_price_snapshot_witness :
    ((⟨[⟨5, 12, 5⟩], [⟨1, 2, 24, "pendente"⟩], [⟨1, 5, 2, 12⟩]⟩ : Store).orderItems =
      (⟨[⟨5, 12, 7⟩], [], []⟩ : Store).orderItems ++
        ([⟨5, 2, 12⟩] : List Detail).map
          (fun d => ⟨(⟨1, 2, 24, "pendente"⟩ : OrderRow).id, d.product_id, d.quantity, d.price⟩)) ∧
    (∀ d ∈ ([⟨5, 2, 12⟩] : List Detail),
      ∃ p, findProduct ⟨[⟨5, 12, 7⟩], [], []⟩ d.product_id = some p ∧ d.price = p.price) ∧
    (∀ (pid : ℕ) (pr : ℚ) (stk : ℤ),
      (updateProduct pid pr stk
          ⟨[⟨5, 12, 5⟩], [⟨1, 2, 24, "pendente"⟩], [⟨1, 5, 2, 12⟩]⟩).orderItems =
        (⟨[⟨5, 12, 5⟩], [⟨1, 2, 24, "pendente"⟩], [⟨1, 5, 2, 12⟩]⟩ : Store).orderItems ∧
      (updateProduct pid pr stk
          ⟨[⟨5, 12, 5⟩], [⟨1, 2, 24, "pendente"⟩], [⟨1, 5, 2, 12⟩]⟩).orders =
        (⟨[⟨5, 12, 5⟩], [⟨1, 2, 24, "pendente"⟩], [⟨1, 5, 2, 12⟩]⟩ : Store).orders) :=
  line_item_price_snapshot ⟨[⟨5, 12, 7⟩], [], []⟩ 2 [⟨5, 2⟩] [⟨5, 2, 12⟩]
    ⟨[⟨5, 12, 5⟩], [⟨1, 2, 24, "pendente"⟩], [⟨1, 5, 2, 12⟩]⟩ ⟨1, 2, 24, "pendente"⟩
    (by decide) (by decide)

/-- C9 counterexample: the claim asserts orders are persisted with status
`pending`, a member of the English status set.  The source inserts the
literal string `pendente` (part_000 line 474), which differs from `pending`
and from every member of the set. -/
theorem order_status_pendente_cex :
    (placeOrder none 1 (some [⟨1, 1⟩]) ⟨[⟨1, 3, 2⟩], [], []⟩).2 =
      .created ⟨1, 1, 3, "pendente"⟩ ∧
    (⟨1, 1, 3, "pendente"⟩ : OrderRow).status ≠ "pending" ∧
    ¬((⟨1, 1, 3, "pendente"⟩ : OrderRow).status ∈
        (["pending", "paid", "shipped", "delivered", "cancelled"] : List String)) := by
  decide

/-- C9 (amended): every successfully committed order is persisted, and
returned to the caller, with initial status equal to the literal string
`pendente`. -/
theorem order_status_always_pendente :
    ∀ (failAt : Option ℕ) (buyer : ℕ) (req : Option (List ReqItem)) (s s2 : Store)
      (o : OrderRow),
      placeOrder failAt buyer req s = (s2, .created o) →
      o.status = "pendente" ∧ o ∈ s2.orders := by
  intro failAt buyer req s s2 o h
  cases req with
  | none => simp [placeOrder] at h
  | some items =>
    unfold placeOrder at h
    dsimp only at h
    rcases hv : validate s items with e | ds
    · rw [hv] at h
      simp at h
    · rw [hv] at h
      have h2 := writePhase_created h
      rw [writePhase_none_eq] at h2
      have ha := congrArg Prod.fst h2
      have hb := congrArg Prod.snd h2
      simp only at ha hb
      injection hb with hb
      subst hb
      exact ⟨rfl, by rw [← ha]; simp⟩

/-- Witness for C9 (amended): a concrete successful commit persists status
`pendente`. -/
theorem order_status_always_pendente_witness :
    (⟨1, 1, 3, "pendente"⟩ : OrderRow).status = "pendente" ∧
    (⟨1, 1, 3, "pendente"⟩ : OrderRow) ∈
      (⟨[⟨1, 3, 1⟩], [⟨1, 1, 3, "pendente"⟩], [⟨1, 1, 1, 3⟩]⟩ : Store).orders :=
  order_status_always_pendente none 1 (some [⟨1, 1⟩]) ⟨[⟨1, 3, 2⟩], [], []⟩
    ⟨[⟨1, 3, 1⟩], [⟨1, 1, 3, "pendente"⟩], [⟨1, 1, 1, 3⟩]⟩ ⟨1, 1, 3, "pendente"⟩ (by decide)

/-- C10: when the same product appears in two lines of one request, each line
is validated against the same unmodified stock (3 units fit the stock of 4,
and 4 is below the combined 6), the commit succeeds, the stock is decremented
once per line, and the product ends with negative stock -2. -/
theorem duplicate_line_items_oversell :
    placeOrder none 8 (some [⟨2, 3⟩, ⟨2, 3⟩]) ⟨[⟨2, 3, 4⟩], [], []⟩ =
      (⟨[⟨2, 3, -2⟩], [⟨1, 8, 18, "pendente"⟩], [⟨1, 2, 3, 3⟩, ⟨1, 2, 3, 3⟩]⟩,
       .created ⟨1, 8, 18, "pendente"⟩) ∧
    ((3 : ℤ) ≤ 4 ∧ (4 : ℤ) < 3 + 3) ∧
    findProduct (placeOrder none 8 (some [⟨2, 3⟩, ⟨2, 3⟩]) ⟨[⟨2, 3, 4⟩], [], []⟩).1 2 =
      some ⟨2, 3, -2⟩ ∧ (-2 : ℤ) < 0 := by
  decide
